import Mathlib

/-!
Verification development for the rest-blazar command-line HTTP client.

The repository consists of near-duplicate revisions of one Go program
(`main.go` plus two earlier revisions).  The definitions below are a shallow
embedding of that program: Go strings are modelled as `List Char` (one element
per byte of the ASCII-ranged data the program manipulates), `http.Header` as an
association list with Go's canonical-MIME-key `Set`/`Get` semantics, the retry
loop of the revision that has `-retries` as a fuel-indexed recursion over an
abstract per-attempt network behaviour, and wall-clock time as a discrete
counter that advances only while a blocking operation (send, body read, sleep)
runs, measured in nanoseconds as Go's `time.Duration` is.
-/

namespace Blazar

/-- Go strings are byte sequences; the program only manipulates ASCII-ranged
data, modelled one `Char` per byte. -/
abbrev Str := List Char

/-! ## Go `strings` package primitives used by the program -/

/-- `strings.Split(s, sep)` for a one-byte separator: `Split("", ",") = [""]`,
and a trailing separator yields a trailing empty token. -/
def splitOnChar (sep : Char) : Str → List Str
  | [] => [[]]
  | c :: cs =>
    if c = sep then [] :: splitOnChar sep cs
    else
      match splitOnChar sep cs with
      | [] => [[c]]
      | t :: ts => (c :: t) :: ts

/-- `strings.SplitN(s, sep, 2)` for a one-byte separator, as the optional pair
around the first occurrence: `none` when the separator does not occur (Go
returns a one-element slice there, which the program drops). -/
def splitN2 (sep : Char) : Str → Option (Str × Str)
  | [] => none
  | c :: cs =>
    if c = sep then some ([], cs)
    else (splitN2 sep cs).map (fun p => (c :: p.1, p.2))

/-- `strings.TrimSpace`. -/
def trimSpace (s : Str) : Str :=
  ((s.dropWhile Char.isWhitespace).reverse.dropWhile Char.isWhitespace).reverse

/-- `strings.Join(values, ", ")` as used on header value slices. -/
def joinComma (vs : List Str) : Str :=
  List.intercalate ", ".data vs

/-! ## Go `net/http` header model -/

/-- Is `c` a valid header-field token byte (RFC 7230), as checked by
`textproto.CanonicalMIMEHeaderKey`? -/
def isTokenChar (c : Char) : Bool :=
  c.isAlphanum ||
    [Char.ofNat 33, Char.ofNat 35, Char.ofNat 36, Char.ofNat 37, Char.ofNat 38,
     Char.ofNat 39, Char.ofNat 42, Char.ofNat 43, Char.ofNat 45, Char.ofNat 46,
     Char.ofNat 94, Char.ofNat 95, Char.ofNat 96, Char.ofNat 124,
     Char.ofNat 126].contains c

/-- The per-byte pass of `textproto.CanonicalMIMEHeaderKey`: uppercase at the
start and after each hyphen, lowercase elsewhere. -/
def canonChars : Bool → Str → Str
  | _, [] => []
  | upper, c :: cs =>
    (if upper then c.toUpper else c.toLower) :: canonChars (c = Char.ofNat 45) cs

/-- `textproto.CanonicalMIMEHeaderKey`: keys containing a non-token byte are
returned unchanged, otherwise hyphen-separated words are capitalized. -/
def canonicalKey (s : Str) : Str :=
  if s.all isTokenChar then canonChars true s else s

/-- `http.Header`: a map from canonical key to value slice, modelled as an
association list (Go map iteration order is modelled by list order). -/
abbrev Header := List (Str × List Str)

/-- Replace the first entry for key `ck`, or append a new one — the
association-list rendering of a Go map update. -/
def setEntry (ck : Str) (v : Str) : Header → Header
  | [] => [(ck, [v])]
  | p :: rest => if p.1 = ck then (ck, [v]) :: rest else p :: setEntry ck v rest

/-- Look up the value slice stored for key `ck` (empty when absent). -/
def getEntry (ck : Str) : Header → List Str
  | [] => []
  | p :: rest => if p.1 = ck then p.2 else getEntry ck rest

/-- `Header.Set(key, value)`: canonicalizes the key and replaces any existing
values with the single given one. -/
def headerSet (h : Header) (k v : Str) : Header :=
  setEntry (canonicalKey k) v h

/-- `Header.Get(key)`: first stored value for the canonicalized key, `""` when
the key is absent. -/
def headerGet (h : Header) (k : Str) : Str :=
  match getEntry (canonicalKey k) h with
  | [] => []
  | v :: _ => v

/-! ## Configuration (the parsed command-line flags)

Fields and defaults follow the flag declarations; `retries` and `retryDelay`
exist only in the revision that implements retries.  Per the spec's data model
`retryCount` is a non-negative integer, so `retries : Nat`. -/

structure Config where
  method : Str
  url : Str
  body : Str
  headers : Str
  timeout : Nat
  output : Str
  save : Str
  bodyFile : Str
  user : Str
  pass : Str
  verbose : Bool
  noRedirect : Bool
  http2 : Bool
  jsonData : Str
  formData : Str
  retries : Nat
  retryDelay : Nat
deriving DecidableEq

/-- A configuration with every flag at its zero value (method defaulted). -/
def defaultConfig : Config where
  method := "GET".data
  url := []
  body := []
  headers := []
  timeout := 10
  output := "pretty".data
  save := []
  bodyFile := []
  user := []
  pass := []
  verbose := false
  noRedirect := false
  http2 := false
  jsonData := []
  formData := []
  retries := 0
  retryDelay := 1

/-! ## Body resolution (the `if bodyFile / else if jsonData / else if formData /
else body` chain of the retry revision) -/

/-- The body sources of the spec's `RequestSpec.bodySource`. -/
inductive BodySrc where
  | file
  | jsonFields
  | formFields
  | raw
  | none
deriving DecidableEq

/-- Which body source the `if/else if` chain selects.  The final `else` feeds
the raw `-body` text to the request; when that flag is empty the request body
is the empty reader, i.e. the `None` source. -/
def chosenSource (cfg : Config) : BodySrc :=
  if cfg.bodyFile ≠ [] then BodySrc.file
  else if cfg.jsonData ≠ [] then BodySrc.jsonFields
  else if cfg.formData ≠ [] then BodySrc.formFields
  else if cfg.body ≠ [] then BodySrc.raw
  else BodySrc.none

/-- The spec's wording for the same choice: the precedence list
File > JSONFields > FormFields > Raw with the first non-empty source winning,
None otherwise. -/
def chosenSource_fromSpec (cfg : Config) : BodySrc :=
  match [(BodySrc.file, cfg.bodyFile), (BodySrc.jsonFields, cfg.jsonData),
         (BodySrc.formFields, cfg.formData), (BodySrc.raw, cfg.body)].find?
        (fun p => !p.2.isEmpty) with
  | some p => p.1
  | Option.none => BodySrc.none

/-! ## `-json` key=value parsing (retry revision, body-resolution block) -/

/-- Go map assignment `m[k] = v` on an association list. -/
def mapInsert (k v : Str) : List (Str × Str) → List (Str × Str)
  | [] => [(k, v)]
  | p :: rest => if p.1 = k then (k, v) :: rest else p :: mapInsert k v rest

/-- The `jsonMap` built from the `-json` flag: split on commas, split each
token at the first `=` via `SplitN(pair, "=", 2)`, keep only two-part splits. -/
def jsonMapOf (s : Str) : List (Str × Str) :=
  (splitOnChar ',' s).foldl
    (fun m tok =>
      match splitN2 '=' tok with
      | some kv => mapInsert kv.1 kv.2 m
      | Option.none => m)
    []

/-- The spec's wording for the token parse: tokens containing no `=` are
silently dropped, the others are split at the first `=`. -/
def jsonPairs_fromSpec (s : Str) : List (Str × Str) :=
  ((splitOnChar ',' s).filter (fun tok => tok.any (fun c => c == '='))).map
    (fun tok => (tok.takeWhile (fun c => !(c == '=')),
                 (tok.dropWhile (fun c => !(c == '='))).tail))

/-! ## Request building -/

/-- Standard base64 alphabet, for `SetBasicAuth`. -/
def b64Alphabet : Str :=
  "ABCDEFGHIJKLMNOPQRSTUVWXYZabcdefghijklmnopqrstuvwxyz0123456789+/".data

/-- One base64 output character. -/
def b64Char (n : Nat) : Char := b64Alphabet.getD n (Char.ofNat 61)

/-- `base64.StdEncoding.EncodeToString` over byte values. -/
def base64Encode : List Nat → Str
  | [] => []
  | [a] => [b64Char (a / 4), b64Char (a % 4 * 16), Char.ofNat 61, Char.ofNat 61]
  | [a, b] => [b64Char (a / 4), b64Char (a % 4 * 16 + b / 16),
               b64Char (b % 16 * 4), Char.ofNat 61]
  | a :: b :: c :: rest =>
    [b64Char (a / 4), b64Char (a % 4 * 16 + b / 16),
     b64Char (b % 16 * 4 + c / 64), b64Char (c % 64)] ++ base64Encode rest

/-- `Request.SetBasicAuth(user, pass)` stores
`"Basic " + base64(user + ":" + pass)` in the `Authorization` header. -/
def basicAuthValue (u p : Str) : Str :=
  "Basic ".data ++ base64Encode ((u ++ ":".data ++ p).map Char.toNat)

def contentTypeKey : Str := "Content-Type".data

def appJson : Str := "application/json".data

/-- The header mutation performed inside the body-resolution block: the json
and form branches set a default `Content-Type` if the request does not already
carry one.  (In the source these lines run before the `-headers` flag is
applied, so at this point only the body block itself can have set a header.) -/
def bodyHeaderEffect (cfg : Config) (h : Header) : Header :=
  match chosenSource cfg with
  | BodySrc.jsonFields =>
    if headerGet h contentTypeKey = [] then headerSet h contentTypeKey appJson else h
  | BodySrc.formFields =>
    if headerGet h contentTypeKey = [] then
      headerSet h contentTypeKey "application/x-www-form-urlencoded".data
    else h
  | _ => h

/-- The `-headers` flag block: comma-separated `Name:Value` tokens, each split
at the first `:` and trimmed, applied with `Header.Set`; tokens without `:` are
dropped.  When the flag is empty, the fallback sets
`Content-Type: application/json`. -/
def applyHeaderFlag (hdrs : Str) (h : Header) : Header :=
  if hdrs = [] then headerSet h contentTypeKey appJson
  else
    (splitOnChar ',' hdrs).foldl
      (fun acc pair =>
        match splitN2 ':' pair with
        | some kv => headerSet acc (trimSpace kv.1) (trimSpace kv.2)
        | Option.none => acc)
      h

/-- The name/value pairs the `-headers` flag contributes, in order. -/
def parsedHeaderPairs (hdrs : Str) : List (Str × Str) :=
  (splitOnChar ',' hdrs).filterMap
    (fun pair =>
      match splitN2 ':' pair with
      | some kv => some (trimSpace kv.1, trimSpace kv.2)
      | Option.none => none)

/-- The last pair of `ps` whose canonicalized key matches `key`, if any. -/
def lastMatch (key : Str) : List (Str × Str) → Option Str
  | [] => none
  | p :: rest =>
    match lastMatch key rest with
    | some v => some v
    | Option.none =>
      if canonicalKey p.1 = canonicalKey key then some p.2 else none

/-- The transport-ready request. -/
structure BuiltRequest where
  method : Str
  url : Str
  header : Header
deriving DecidableEq

/-- Request construction: the body block's content-type effect, then
`SetBasicAuth` when `-user` is non-empty, then the `-headers` flag (with its
empty-flag `Content-Type: application/json` fallback). -/
def buildRequest (cfg : Config) : BuiltRequest :=
  let h1 := bodyHeaderEffect cfg []
  let h2 := if cfg.user ≠ [] then headerSet h1 "Authorization".data (basicAuthValue cfg.user cfg.pass)
            else h1
  { method := cfg.method, url := cfg.url, header := applyHeaderFlag cfg.headers h2 }

/-! ## Verbose request trace (`-verbose`, printed before sending) -/

/-- One `> Name: v1, v2` header line of the verbose trace. -/
def headerLine (p : Str × List Str) : Str :=
  "> ".data ++ p.1 ++ ": ".data ++ joinComma p.2

/-- The lines printed by the verbose block: a blank line, `> METHOD URL`, one
line per request header, and — only when the `-body` or `-body-file` flag is
non-empty — a `> ` marker line followed by `> ` plus the raw `-body` text,
then a closing blank line. -/
def verboseTrace (cfg : Config) (req : BuiltRequest) : List Str :=
  [[], "> ".data ++ req.method ++ " ".data ++ req.url]
    ++ req.header.map headerLine
    ++ (if cfg.body ≠ [] ∨ cfg.bodyFile ≠ []
        then ["> ".data, "> ".data ++ cfg.body] else [])
    ++ [[]]

/-! ## Executor: the retry loop

The network is abstracted as a per-attempt behaviour: attempt `i` either fails
in `client.Do`, connects but fails in `io.ReadAll`, or succeeds with a
response and a fully read body.  Time is a discrete counter that advances only
while `Do` or `ReadAll` blocks, in nanoseconds. -/

/-- A response as the program reads it: status line text, numeric code, and
headers. -/
structure Resp where
  status : Str
  statusCode : Nat
  header : Header
deriving DecidableEq

/-- What one attempt's network interaction does. -/
inductive NetResult where
  | doError (e : Str)
  | readFail (resp : Resp) (e : Str)
  | ok (resp : Resp) (data : Str)
deriving DecidableEq

/-- One attempt's behaviour: its result, the time `client.Do` blocks, and the
time `io.ReadAll` blocks (nanoseconds). -/
structure TimedNet where
  outcome : NetResult
  doTime : Nat
  readTime : Nat
deriving DecidableEq

/-- Does the attempt fail (transport error or unreadable body)? -/
def attemptFails (t : TimedNet) : Bool :=
  match t.outcome with
  | NetResult.ok _ _ => false
  | _ => true

/-- The error an attempt stores in `finalErr` when it fails. -/
def lastErr (t : TimedNet) : Str :=
  match t.outcome with
  | NetResult.doError e => e
  | NetResult.readFail _ e => e
  | NetResult.ok _ _ => []

/-- The Executor's terminal result.  `success` carries the winning attempt's
response, body, duration and 1-based attempt index; `failure` carries the last
attempt's error and the number of attempts performed. -/
inductive Outcome where
  | success (resp : Resp) (data : Str) (duration : Nat) (attemptsUsed : Nat)
  | failure (lastError : Str) (attemptsUsed : Nat)
deriving DecidableEq

/-- The retry loop from attempt index `i` with `fuel` further attempts allowed
after this one (`fuel = retries - i` along the real loop).  Each iteration
resets `startTime`, runs `Do` and `ReadAll`, and on success stores the
duration measured from its own send to its own full body read; on failure it
stores the error and continues, so a terminal failure carries the final
attempt's error. -/
def execFrom (network : Nat → TimedNet) (i : Nat) : Nat → Outcome
  | 0 =>
    match (network i).outcome with
    | NetResult.ok resp data =>
      Outcome.success resp data ((network i).doTime + (network i).readTime) (i + 1)
    | NetResult.doError e => Outcome.failure e (i + 1)
    | NetResult.readFail _ e => Outcome.failure e (i + 1)
  | fuel + 1 =>
    match (network i).outcome with
    | NetResult.ok resp data =>
      Outcome.success resp data ((network i).doTime + (network i).readTime) (i + 1)
    | _ => execFrom network (i + 1) fuel

/-- `for attempt := 0; attempt <= retries; attempt++`: run up to `retries + 1`
attempts, stopping at the first success. -/
def executor (network : Nat → TimedNet) (retries : Nat) : Outcome :=
  execFrom network 0 retries

/-! The same loop at the level of its Go variables, for the Outcome invariant:
`respData`, `finalResp`, `finalErr` start nil, each iteration either breaks
with a success (setting `finalResp` and clearing `finalErr`) or records the
error, and `attempts` counts iterations actually executed. -/

structure GoVars where
  respData : Option Str
  finalResp : Option Resp
  finalErr : Option Str
  durationVar : Option Nat
  attempts : Nat
  broke : Bool
deriving DecidableEq

def goInit : GoVars :=
  { respData := none, finalResp := none, finalErr := none,
    durationVar := none, attempts := 0, broke := false }

/-- One iteration of the retry loop over the shared variables; a `break` is
modelled by the `broke` flag absorbing later iterations. -/
def goIter (network : Nat → TimedNet) (v : GoVars) (i : Nat) : GoVars :=
  if v.broke then v
  else
    match (network i).outcome with
    | NetResult.ok resp data =>
      { v with respData := some data, finalResp := some resp, finalErr := none,
               durationVar := some ((network i).doTime + (network i).readTime),
               attempts := v.attempts + 1, broke := true }
    | NetResult.doError e => { v with finalErr := some e, attempts := v.attempts + 1 }
    | NetResult.readFail _ e => { v with finalErr := some e, attempts := v.attempts + 1 }

/-- The whole loop: iterations `0, 1, …, retries`. -/
def goLoop (network : Nat → TimedNet) (retries : Nat) : GoVars :=
  (List.range (retries + 1)).foldl (goIter network) goInit

/-- The single-attempt execution of `main.go`: `startTime` is taken before
`client.Do`, and the reported duration is `time.Since(startTime)` computed
right after `Do` returns — before `io.ReadAll` runs — so it covers only the
send, not the body read. -/
def mainGoOutcome (n : TimedNet) : Outcome :=
  match n.outcome with
  | NetResult.doError e => Outcome.failure e 1
  | NetResult.readFail _ e => Outcome.failure e 1
  | NetResult.ok resp data => Outcome.success resp data n.doTime 1

/-! ## Duration rendering (`time.Duration.String`, non-negative values) -/

/-- Left-pad a digit string with zeros to width `n`. -/
def padZeros (n : Nat) (s : Str) : Str :=
  List.replicate (n - s.length) (Char.ofNat 48) ++ s

/-- The fractional part `fmtFrac` appends: the low `prec` decimal digits of
`v`, trailing zeros stripped, preceded by a dot — empty when the fraction is
zero. -/
def fracPart (v prec : Nat) : Str :=
  let t := ((padZeros prec (Nat.toDigits 10 (v % 10 ^ prec))).reverse.dropWhile
    (fun c => c = Char.ofNat 48)).reverse
  if t = [] then [] else Char.ofNat 46 :: t

/-- `time.Duration.String()` for a non-negative duration in nanoseconds:
`0s`, `Xns`, `X.Yµs`, `X.Yms` below one second, else `[Hh][Mm]S.Fs`. -/
def durationString (ns : Nat) : Str :=
  if ns = 0 then "0s".data
  else if ns < 1000 then Nat.toDigits 10 ns ++ "ns".data
  else if ns < 1000000 then Nat.toDigits 10 (ns / 1000) ++ fracPart ns 3 ++ "µs".data
  else if ns < 1000000000 then Nat.toDigits 10 (ns / 1000000) ++ fracPart ns 6 ++ "ms".data
  else
    let secs := ns / 1000000000
    let base := Nat.toDigits 10 (secs % 60) ++ fracPart ns 9 ++ "s".data
    if secs / 60 = 0 then base
    else
      let withMin := Nat.toDigits 10 (secs / 60 % 60) ++ "m".data ++ base
      if secs / 3600 = 0 then withMin
      else Nat.toDigits 10 (secs / 3600) ++ "h".data ++ withMin

/-! ## Renderers -/

/-- A JSON value, for the object `outputJSON` hands to `json.MarshalIndent`. -/
inductive JValue where
  | str (s : Str)
  | num (n : Nat)
  | arr (xs : List JValue)
  | obj (fields : List (Str × JValue))

/-- The `result` map built by `outputJSON` in `main.go`, in source order. -/
def jsonResult (resp : Resp) (data : Str) (dur : Nat) : List (Str × JValue) :=
  [("status".data, JValue.str resp.status),
   ("statusCode".data, JValue.num resp.statusCode),
   ("headers".data,
    JValue.obj (resp.header.map (fun p => (p.1, JValue.arr (p.2.map JValue.str))))),
   ("body".data, JValue.str data),
   ("duration".data, JValue.str (durationString dur))]

/-- One hex digit, lowercase, as `encoding/json` emits in `\u00XX` escapes. -/
def hexDigit (n : Nat) : Char :=
  if n < 10 then Char.ofNat (48 + n) else Char.ofNat (87 + n)

/-- `encoding/json` string escaping: quote, backslash, `\n`/`\r`/`\t`, other
control bytes as `\u00XX`, the HTML-unsafe `<`, `>`, `&` likewise, and
the line and paragraph separators U+2028/U+2029 as six-byte u-escapes. -/
def escapeChar (c : Char) : Str :=
  if c = Char.ofNat 34 then [Char.ofNat 92, Char.ofNat 34]
  else if c = Char.ofNat 92 then [Char.ofNat 92, Char.ofNat 92]
  else if c = Char.ofNat 10 then [Char.ofNat 92, Char.ofNat 110]
  else if c = Char.ofNat 13 then [Char.ofNat 92, Char.ofNat 114]
  else if c = Char.ofNat 9 then [Char.ofNat 92, Char.ofNat 116]
  else if c.toNat < 32 ∨ c = Char.ofNat 60 ∨ c = Char.ofNat 62 ∨ c = Char.ofNat 38 then
    [Char.ofNat 92, Char.ofNat 117, Char.ofNat 48, Char.ofNat 48,
     hexDigit (c.toNat / 16), hexDigit (c.toNat % 16)]
  else if c.toNat = 8232 ∨ c.toNat = 8233 then
    [Char.ofNat 92, Char.ofNat 117, Char.ofNat 50, Char.ofNat 48, Char.ofNat 50,
     hexDigit (c.toNat % 16)]
  else [c]

/-- A JSON string literal for `s`. -/
def quoteStr (s : Str) : Str :=
  Char.ofNat 34 :: (s.map escapeChar).flatten ++ [Char.ofNat 34]

/-- Go byte-wise string comparison, for the sorted map keys of `json.Marshal`. -/
def strLt : Str → Str → Bool
  | [], [] => false
  | [], _ :: _ => true
  | _ :: _, [] => false
  | a :: as, b :: bs =>
    if a.toNat < b.toNat then true
    else if b.toNat < a.toNat then false
    else strLt as bs

def insertSorted (p : Str × List Str) : List (Str × List Str) → List (Str × List Str)
  | [] => [p]
  | q :: rest => if strLt p.1 q.1 then p :: q :: rest else q :: insertSorted p rest

/-- `json.Marshal` emits map entries in sorted key order. -/
def sortByKey (h : Header) : Header :=
  h.foldr insertSorted []

/-- The `headers` value as `MarshalIndent` renders a `[]string`, at nesting
depth `ind`. -/
def marshalStrArr (ind : Str) (vs : List Str) : Str :=
  match vs with
  | [] => "[]".data
  | _ =>
    "[\n".data
      ++ List.intercalate ",\n".data (vs.map (fun v => ind ++ "  ".data ++ quoteStr v))
      ++ "\n".data ++ ind ++ "]".data

/-- The `headers` map as `MarshalIndent` renders `http.Header` nested two
levels deep: keys sorted, each value an array of strings. -/
def marshalHeaders (h : Header) : Str :=
  match sortByKey h with
  | [] => "\x7b\x7d".data
  | hs =>
    "\x7b\n".data
      ++ List.intercalate ",\n".data
          (hs.map (fun p => "    ".data ++ quoteStr p.1 ++ ": ".data
            ++ marshalStrArr "    ".data p.2))
      ++ "\n  \x7d".data

/-- `json.MarshalIndent(result, "", "  ")` for the five-field `result` map of
`outputJSON`: keys in sorted order (body, duration, headers, status,
statusCode), two-space indentation. -/
def marshalResult (resp : Resp) (data : Str) (dur : Nat) : Str :=
  "\x7b\n  \"body\": ".data ++ quoteStr data
    ++ ",\n  \"duration\": ".data ++ quoteStr (durationString dur)
    ++ ",\n  \"headers\": ".data ++ marshalHeaders resp.header
    ++ ",\n  \"status\": ".data ++ quoteStr resp.status
    ++ ",\n  \"statusCode\": ".data ++ Nat.toDigits 10 resp.statusCode
    ++ "\n\x7d".data

/-- The ANSI color `outputPretty` picks per status-code bucket. -/
def statusColor (code : Nat) : Str :=
  if 500 ≤ code then "\x1b[31m".data
  else if 400 ≤ code then "\x1b[33m".data
  else if 300 ≤ code then "\x1b[36m".data
  else if 200 ≤ code then "\x1b[32m".data
  else "\x1b[37m".data

/-- `outputPretty` (main.go): colored status line, `Headers:` block, `Body:`
block, and the completion line with the elapsed duration. -/
def outputPretty (resp : Resp) (data : Str) (dur : Nat) : Str :=
  "Status: ".data
    ++ (statusColor resp.statusCode ++ resp.status ++ "\x1b[0m\n".data
      ++ "Headers:\n".data
      ++ (resp.header.map
          (fun p => "  ".data ++ p.1 ++ ": ".data ++ joinComma p.2 ++ "\n".data)).flatten
      ++ "Body:\n".data ++ data ++ "\n".data
      ++ "Request completed in ".data ++ durationString dur ++ "\n".data)

/-- `outputHeaders`: one `Name: v1, v2` line per header, nothing else. -/
def outputHeaders (resp : Resp) : Str :=
  (resp.header.map (fun p => p.1 ++ ": ".data ++ joinComma p.2 ++ "\n".data)).flatten

/-- The output-format switch of `main.go`: `json`, `headers-only`,
`body-only` (the body followed by `Println`'s newline), and everything else —
including the documented default `pretty` — rendered by `outputPretty`. -/
def renderOutput (fmt : Str) (resp : Resp) (data : Str) (dur : Nat) : Str :=
  if fmt = "json".data then marshalResult resp data dur
  else if fmt = "headers-only".data then outputHeaders resp
  else if fmt = "body-only".data then data ++ "\n".data
  else outputPretty resp data dur

/-! ## The end of `main`: failure reporting, sink, and rendering -/

/-- The terminal error line `Error after %d attempts: %v` with the process
exiting afterwards. -/
def errAfterMsg (retries : Nat) (e : Str) : Str :=
  "Error after ".data ++ Nat.toDigits 10 (retries + 1) ++ " attempts: ".data
    ++ e ++ "\n".data

/-- The observable result of one invocation. -/
structure RunResult where
  exitCode : Nat
  reported : Option Str
  saved : Option Str
  rendered : Option Str
deriving DecidableEq

/-- The tail of `main` after request construction: the retry loop (retry
revision), then — exactly as in `main.go` — exit 1 with the error report and
no rendering on terminal failure, otherwise write the body bytes to the
`-save` path when one is configured and render the outcome in the configured
format. -/
def runMain (cfg : Config) (network : Nat → TimedNet) : RunResult :=
  match executor network cfg.retries with
  | Outcome.failure e _ =>
    { exitCode := 1, reported := some (errAfterMsg cfg.retries e),
      saved := none, rendered := none }
  | Outcome.success resp data dur _ =>
    { exitCode := 0, reported := none,
      saved := if cfg.save ≠ [] then some data else none,
      rendered := some (renderOutput cfg.output resp data dur) }

/-! ## Helper lemmas -/

theorem getEntry_setEntry (c1 c2 v : Str) (h : Header) :
    getEntry c2 (setEntry c1 v h) = if c1 = c2 then [v] else getEntry c2 h := by
  induction h with
  | nil => simp [setEntry, getEntry]
  | cons p rest ih =>
    by_cases hp : p.1 = c1
    · by_cases hc : c1 = c2
      · simp [setEntry, getEntry, hp, hc]
      · have hpc : ¬ p.1 = c2 := fun h' => hc (hp.symm.trans h')
        simp [setEntry, getEntry, hp, hc, hpc]
    · by_cases hpc : p.1 = c2
      · have hc : ¬ c1 = c2 := fun h' => hp (hpc.trans h'.symm)
        have hc' : ¬ c2 = c1 := fun h' => hc h'.symm
        simp [setEntry, getEntry, hp, hpc, hc, hc']
      · simp [setEntry, getEntry, hp, hpc, ih]

theorem headerGet_headerSet (h : Header) (k1 v k2 : Str) :
    headerGet (headerSet h k1 v) k2
      = if canonicalKey k1 = canonicalKey k2 then v else headerGet h k2 := by
  unfold headerGet headerSet
  rw [getEntry_setEntry]
  by_cases hc : canonicalKey k1 = canonicalKey k2 <;> simp [hc]

theorem headerGet_foldl (ps : List (Str × Str)) (h : Header) (k : Str) :
    headerGet (ps.foldl (fun acc p => headerSet acc p.1 p.2) h) k
      = (lastMatch k ps).getD (headerGet h k) := by
  induction ps generalizing h with
  | nil => rfl
  | cons p rest ih =>
    rw [List.foldl_cons, ih]
    show _ = (match lastMatch k rest with
      | some v => some v
      | Option.none =>
        if canonicalKey p.1 = canonicalKey k then some p.2 else none).getD _
    cases lastMatch k rest with
    | some v => simp
    | none =>
      rw [headerGet_headerSet]
      by_cases hc : canonicalKey p.1 = canonicalKey k <;> simp [hc]

theorem splitN2_spec (t : Str) :
    splitN2 '=' t =
      if t.any (fun c => c == '=')
      then some (t.takeWhile (fun c => !(c == '=')),
                 (t.dropWhile (fun c => !(c == '='))).tail)
      else none := by
  induction t with
  | nil => rfl
  | cons c cs ih =>
    by_cases hc : c = '='
    · subst hc
      simp [splitN2]
    · by_cases h2 : cs.any (fun x => x == '=') <;>
        simp [splitN2, hc, ih, h2]

theorem jsonMap_foldl (toks : List Str) (m : List (Str × Str)) :
    toks.foldl
      (fun m tok =>
        match splitN2 '=' tok with
        | some kv => mapInsert kv.1 kv.2 m
        | Option.none => m) m
    = ((toks.filter (fun tok => tok.any (fun c => c == '='))).map
        (fun tok => (tok.takeWhile (fun c => !(c == '=')),
                     (tok.dropWhile (fun c => !(c == '='))).tail))).foldl
        (fun m p => mapInsert p.1 p.2 m) m := by
  induction toks generalizing m with
  | nil => rfl
  | cons t ts ih =>
    rw [List.foldl_cons, splitN2_spec t, List.filter_cons]
    by_cases h : t.any (fun c => c == '=')
    · rw [if_pos h, if_pos h, List.map_cons, List.foldl_cons]
      exact ih _
    · rw [if_neg h, if_neg h]
      exact ih _

/-! ## Claims -/

/-- C4: when several body sources are set simultaneously, the resolved body is
chosen by the precedence File > JSONFields > FormFields > Raw > None, the
first non-empty source winning — the `if/else if` chain realizes exactly the
spec's first-non-empty rule. -/
theorem c4_body_source_precedence (cfg : Config) :
    chosenSource cfg = chosenSource_fromSpec cfg := by
  cases hbf : cfg.bodyFile <;> cases hj : cfg.jsonData <;>
    cases hf : cfg.formData <;> cases hb : cfg.body <;>
      simp [chosenSource, chosenSource_fromSpec, hbf, hj, hf, hb, List.find?]

/-- C5: the `-json` resolver splits its input on commas, splits each token at
the first `=`, silently drops every token containing no `=`, and builds a flat
JSON object (a key-to-value map, later duplicates overriding) from exactly the
surviving pairs. -/
theorem c5_json_pairs (s : Str) :
    jsonMapOf s
      = (jsonPairs_fromSpec s).foldl (fun m p => mapInsert p.1 p.2 m) [] := by
  simpa [jsonPairs_fromSpec, List.foldl_map] using
    jsonMap_foldl (splitOnChar ',' s) []

/-- The pretty rendering is never empty: it always starts with `Status: `. -/
theorem outputPretty_ne_nil (resp : Resp) (data : Str) (dur : Nat) :
    outputPretty resp data dur ≠ [] := by
  intro h
  rw [outputPretty, List.append_eq_nil] at h
  exact absurd h.1 (by decide)

/-- C7: for every successful Outcome, the bytes written to the save path are
exactly the body bytes, and the `body-only` rendering of that same Outcome is
those bytes followed by `Println`'s line terminator — the saved bytes equal
the rendered body byte for byte. -/
theorem c7_save_body_roundtrip (cfg : Config) (network : Nat → TimedNet)
    (resp : Resp) (data : Str) (dur n : Nat)
    (hsave : cfg.save ≠ [])
    (hexec : executor network cfg.retries = Outcome.success resp data dur n) :
    (runMain cfg network).saved = some data
      ∧ renderOutput "body-only".data resp data dur = data ++ "\n".data := by
  constructor
  · rw [runMain, hexec]
    simp [hsave]
  · rw [renderOutput, if_neg (by decide), if_neg (by decide), if_pos rfl]

def respW : Resp :=
  { status := "200 OK".data, statusCode := 200,
    header := [("X-Test".data, ["1".data])] }

def netW : Nat → TimedNet :=
  fun _ => { outcome := NetResult.ok respW "payload".data, doTime := 3, readTime := 4 }

def cfgW : Config := { defaultConfig with url := "http://a".data, save := "out.txt".data }

/-- Witness for C7 at a concrete configuration and network. -/
theorem c7_save_body_roundtrip_witness :
    (runMain cfgW netW).saved = some "payload".data
      ∧ renderOutput "body-only".data respW "payload".data 7 = "payload".data ++ "\n".data :=
  c7_save_body_roundtrip cfgW netW respW "payload".data 7 1 (by decide) (by decide)

/-- C8: the json rendering of a successful Outcome is a single JSON object
with exactly the fields `status` (status text), `statusCode` (integer),
`headers` (name mapped to list of values), `body` (raw text) and `duration`
(human-readable duration string); the `json` output format marshals exactly
this object. -/
theorem c8_json_object_fields (resp : Resp) (data : Str) (dur : Nat) :
    (jsonResult resp data dur).map Prod.fst
        = ["status".data, "statusCode".data, "headers".data, "body".data, "duration".data]
      ∧ List.lookup "status".data (jsonResult resp data dur) = some (JValue.str resp.status)
      ∧ List.lookup "statusCode".data (jsonResult resp data dur)
          = some (JValue.num resp.statusCode)
      ∧ List.lookup "headers".data (jsonResult resp data dur)
          = some (JValue.obj (resp.header.map
              (fun p => (p.1, JValue.arr (p.2.map JValue.str)))))
      ∧ List.lookup "body".data (jsonResult resp data dur) = some (JValue.str data)
      ∧ List.lookup "duration".data (jsonResult resp data dur)
          = some (JValue.str (durationString dur))
      ∧ renderOutput "json".data resp data dur = marshalResult resp data dur :=
  ⟨rfl, rfl, rfl, rfl, rfl, rfl, rfl⟩

/-- C10: every output-format string other than `json`, `headers-only` and
`body-only` — not only the documented default `pretty` — renders a successful
Outcome in the pretty format, and the output is never empty. -/
theorem c10_unknown_format_is_pretty (fmt : Str) (resp : Resp) (data : Str) (dur : Nat)
    (h1 : fmt ≠ "json".data) (h2 : fmt ≠ "headers-only".data) (h3 : fmt ≠ "body-only".data) :
    renderOutput fmt resp data dur = outputPretty resp data dur
      ∧ renderOutput fmt resp data dur ≠ [] := by
  have he : renderOutput fmt resp data dur = outputPretty resp data dur := by
    rw [renderOutput, if_neg h1, if_neg h2, if_neg h3]
  exact ⟨he, he ▸ outputPretty_ne_nil resp data dur⟩

/-- Witness for C10 at the unrecognized format string `table`. -/
theorem c10_unknown_format_is_pretty_witness :
    renderOutput "table".data respW "hi".data 5 = outputPretty respW "hi".data 5
      ∧ renderOutput "table".data respW "hi".data 5 ≠ [] :=
  c10_unknown_format_is_pretty "table".data respW "hi".data 5
    (by decide) (by decide) (by decide)

/-- When attempts `i, …, i + fuel` all fail, the loop runs them all and ends
with the final attempt's error. -/
theorem execFrom_all_fail (network : Nat → TimedNet) :
    ∀ (fuel i : Nat),
      (∀ j, i ≤ j → j ≤ i + fuel → attemptFails (network j) = true) →
      execFrom network i fuel
        = Outcome.failure (lastErr (network (i + fuel))) (i + fuel + 1) := by
  intro fuel
  induction fuel with
  | zero =>
    intro i h
    have hi := h i (Nat.le_refl i) (Nat.le_add_right i 0)
    cases hout : (network i).outcome with
    | ok resp data => simp [attemptFails, hout] at hi
    | doError e => simp [execFrom, hout, lastErr]
    | readFail r e => simp [execFrom, hout, lastErr]
  | succ fuel ih =>
    intro i h
    have hi := h i (Nat.le_refl i) (Nat.le_add_right i (fuel + 1))
    have hrec := ih (i + 1) (fun j hj1 hj2 => h j (by omega) (by omega))
    have heq : i + 1 + fuel = i + (fuel + 1) := by omega
    rw [heq] at hrec
    cases hout : (network i).outcome with
    | ok resp data => simp [attemptFails, hout] at hi
    | doError e => simpa [execFrom, hout] using hrec
    | readFail r e => simpa [execFrom, hout] using hrec

/-- When attempts `i, …, i + k - 1` fail and attempt `i + k` succeeds within
the budget, the loop stops there, reporting that attempt's send-to-read
duration and its 1-based index. -/
theorem execFrom_first_success (network : Nat → TimedNet) :
    ∀ (fuel i k : Nat) (resp : Resp) (data : Str),
      k ≤ fuel →
      (∀ j, j < k → attemptFails (network (i + j)) = true) →
      (network (i + k)).outcome = NetResult.ok resp data →
      execFrom network i fuel
        = Outcome.success resp data
            ((network (i + k)).doTime + (network (i + k)).readTime) (i + k + 1) := by
  intro fuel
  induction fuel with
  | zero =>
    intro i k resp data hk hfail hok
    have hk0 : k = 0 := Nat.le_zero.mp hk
    subst hk0
    simp only [Nat.add_zero] at hok ⊢
    simp [execFrom, hok]
  | succ fuel ih =>
    intro i k resp data hk hfail hok
    cases k with
    | zero =>
      simp only [Nat.add_zero] at hok ⊢
      simp [execFrom, hok]
    | succ k =>
      have h0 : attemptFails (network i) = true := by
        have h' := hfail 0 (Nat.succ_pos k)
        simpa using h'
      have harg : ∀ j, j < k → attemptFails (network (i + 1 + j)) = true := by
        intro j hj
        have h' := hfail (j + 1) (by omega)
        have heq : i + (j + 1) = i + 1 + j := by omega
        rwa [heq] at h'
      have hok' : (network (i + 1 + k)).outcome = NetResult.ok resp data := by
        have heq : i + (k + 1) = i + 1 + k := by omega
        rwa [heq] at hok
      have hrec := ih (i + 1) k resp data (Nat.le_of_succ_le_succ hk) harg hok'
      have heq : i + 1 + k = i + (k + 1) := by omega
      rw [heq] at hrec
      cases hout : (network i).outcome with
      | ok r d => simp [attemptFails, hout] at h0
      | doError e => simpa [execFrom, hout] using hrec
      | readFail r e => simpa [execFrom, hout] using hrec

/-- C1: for every non-negative retryCount, if every attempt fails, the
Executor performs exactly `retryCount + 1` attempts and ends in a terminal
Failure carrying the last attempt's error; the invocation reports the error,
renders no output, saves nothing, and exits with code 1. -/
theorem c1_retry_exhaustion (cfg : Config) (network : Nat → TimedNet)
    (hfail : ∀ j, j ≤ cfg.retries → attemptFails (network j) = true) :
    executor network cfg.retries
        = Outcome.failure (lastErr (network cfg.retries)) (cfg.retries + 1)
      ∧ runMain cfg network
        = { exitCode := 1,
            reported := some (errAfterMsg cfg.retries (lastErr (network cfg.retries))),
            saved := none, rendered := none } := by
  have he : executor network cfg.retries
      = Outcome.failure (lastErr (network cfg.retries)) (cfg.retries + 1) := by
    have h := execFrom_all_fail network cfg.retries 0
      (fun j hj1 hj2 => hfail j (by omega))
    simpa [executor] using h
  exact ⟨he, by rw [runMain, he]⟩

def netFailW : Nat → TimedNet :=
  fun _ => { outcome := NetResult.doError "connection refused".data,
             doTime := 2, readTime := 0 }

def cfgFailW : Config := { defaultConfig with url := "http://a".data, retries := 2 }

/-- Witness for C1: three attempts against a constantly refusing transport. -/
theorem c1_retry_exhaustion_witness :
    executor netFailW 2 = Outcome.failure "connection refused".data 3
      ∧ runMain cfgFailW netFailW
        = { exitCode := 1,
            reported := some (errAfterMsg 2 "connection refused".data),
            saved := none, rendered := none } :=
  c1_retry_exhaustion cfgFailW netFailW (fun _ _ => rfl)

/-- The duration an Outcome reports (zero for a failure, which renders no
duration at all). -/
def Outcome.durationOf : Outcome → Nat
  | Outcome.success _ _ d _ => d
  | Outcome.failure _ _ => 0

def netC2 : TimedNet :=
  { outcome := NetResult.ok respW "hi".data, doTime := 1, readTime := 5 }

/-- C2 counterexample: in `main.go` the duration is computed by
`time.Since(startTime)` immediately after `client.Do` returns and before
`io.ReadAll` runs, so for an attempt whose send takes 1 and whose body read
takes 5 the reported duration is 1, not the send-to-full-body-read span 6 the
claim describes. -/
theorem c2_counterexample :
    (mainGoOutcome netC2).durationOf ≠ netC2.doTime + netC2.readTime
      ∧ mainGoOutcome netC2 = Outcome.success respW "hi".data 1 1
      ∧ netC2.doTime + netC2.readTime = 6 := by
  refine ⟨by decide, by decide, by decide⟩

/-- C2 amended: in the retry revision each attempt measures its duration from
its own send to its own full body read and the winning attempt's duration
alone is reported (never a sum over retries); in single-attempt `main.go` the
reported duration covers only the send, the body read being excluded. -/
theorem c2_amended_duration :
    (∀ (network : Nat → TimedNet) (retries i : Nat) (resp : Resp) (data : Str),
        i ≤ retries →
        (∀ j, j < i → attemptFails (network j) = true) →
        (network i).outcome = NetResult.ok resp data →
        executor network retries
          = Outcome.success resp data
              ((network i).doTime + (network i).readTime) (i + 1))
      ∧ (∀ (n : TimedNet) (resp : Resp) (data : Str),
          n.outcome = NetResult.ok resp data →
          mainGoOutcome n = Outcome.success resp data n.doTime 1) := by
  constructor
  · intro network retries i resp data hi hfail hok
    have h := execFrom_first_success network retries 0 i resp data hi
      (fun j hj => by simpa using hfail j hj) (by simpa using hok)
    simpa [executor] using h
  · intro n resp data hok
    simp [mainGoOutcome, hok]

def netC2W : Nat → TimedNet :=
  fun j =>
    if j = 0 then { outcome := NetResult.doError "timeout".data, doTime := 9, readTime := 0 }
    else { outcome := NetResult.ok respW "late".data, doTime := 3, readTime := 4 }

/-- Witness for C2 (amended): attempt 0 fails after 9, attempt 1 succeeds
with send 3 and read 4 — the reported duration is 7, that attempt's own
send-to-read span, not 16. -/
theorem c2_amended_duration_witness :
    executor netC2W 1 = Outcome.success respW "late".data 7 2
      ∧ mainGoOutcome netC2 = Outcome.success respW "hi".data 1 1 := by
  constructor
  · exact c2_amended_duration.1 netC2W 1 1 respW "late".data (by decide)
      (fun j hj => by
        have hj0 : j = 0 := Nat.lt_one_iff.mp hj
        subst hj0
        rfl)
      rfl
  · exact c2_amended_duration.2 netC2 respW "hi".data rfl

/-- The loop-state invariant: either the loop broke on a success (response
set, error cleared) or it is still failing (no response, error set). -/
def exclusiveInv (v : GoVars) : Prop :=
  (v.broke = true ∧ v.finalErr = none ∧ v.finalResp.isSome = true)
    ∨ (v.broke = false ∧ v.finalResp = none ∧ v.finalErr.isSome = true)

theorem goIter_inv (network : Nat → TimedNet) (v : GoVars) (i : Nat)
    (h : exclusiveInv v) :
    exclusiveInv (goIter network v i)
      ∧ v.attempts ≤ (goIter network v i).attempts
      ∧ (goIter network v i).attempts ≤ v.attempts + 1 := by
  rcases h with ⟨hb, he, hr⟩ | ⟨hb, hr, he⟩
  · rw [goIter, if_pos hb]
    exact ⟨Or.inl ⟨hb, he, hr⟩, Nat.le_refl _, Nat.le_succ _⟩
  · cases hout : (network i).outcome with
    | ok r d =>
      refine ⟨Or.inl ?_, ?_, ?_⟩ <;> simp [goIter, hb, hout]
    | doError e =>
      refine ⟨Or.inr ?_, ?_, ?_⟩ <;> simp [goIter, hb, hout, hr]
    | readFail r e =>
      refine ⟨Or.inr ?_, ?_, ?_⟩ <;> simp [goIter, hb, hout, hr]

theorem goIter_init (network : Nat → TimedNet) (i : Nat) :
    exclusiveInv (goIter network goInit i)
      ∧ (goIter network goInit i).attempts = 1 := by
  cases hout : (network i).outcome with
  | ok r d => exact ⟨Or.inl (by simp [goIter, goInit, hout]), by simp [goIter, goInit, hout]⟩
  | doError e => exact ⟨Or.inr (by simp [goIter, goInit, hout]), by simp [goIter, goInit, hout]⟩
  | readFail r e => exact ⟨Or.inr (by simp [goIter, goInit, hout]), by simp [goIter, goInit, hout]⟩

theorem goLoop_zero (network : Nat → TimedNet) :
    goLoop network 0 = goIter network goInit 0 := rfl

theorem goLoop_succ (network : Nat → TimedNet) (r : Nat) :
    goLoop network (r + 1) = goIter network (goLoop network r) (r + 1) := by
  rw [goLoop, goLoop, List.range_succ, List.foldl_append]
  rfl

theorem goLoop_inv (network : Nat → TimedNet) (retries : Nat) :
    exclusiveInv (goLoop network retries)
      ∧ 1 ≤ (goLoop network retries).attempts
      ∧ (goLoop network retries).attempts ≤ retries + 1 := by
  induction retries with
  | zero =>
    have h := goIter_init network 0
    rw [goLoop_zero]
    exact ⟨h.1, by omega, by omega⟩
  | succ r ih =>
    rw [goLoop_succ]
    have h := goIter_inv network (goLoop network r) (r + 1) ih.1
    refine ⟨h.1, ?_, ?_⟩
    · have h1 := ih.2.1
      have h2 := h.2.1
      omega
    · have h1 := ih.2.2
      have h2 := h.2.2
      omega

/-- C6: at the end of the retry loop exactly one of the success variables
(`finalResp`) and the failure variable (`finalErr`) is populated, and the
number of attempts actually performed is between 1 and `retries + 1`. -/
theorem c6_outcome_invariant (network : Nat → TimedNet) (retries : Nat) :
    ((goLoop network retries).finalErr = none
        ∧ (goLoop network retries).finalResp.isSome = true
      ∨ (goLoop network retries).finalResp = none
        ∧ (goLoop network retries).finalErr.isSome = true)
      ∧ 1 ≤ (goLoop network retries).attempts
      ∧ (goLoop network retries).attempts ≤ retries + 1 := by
  have h := goLoop_inv network retries
  rcases h.1 with ⟨_, he, hr⟩ | ⟨_, hr, he⟩
  · exact ⟨Or.inl ⟨he, hr⟩, h.2⟩
  · exact ⟨Or.inr ⟨hr, he⟩, h.2⟩

/-- When the `-headers` flag is non-empty, applying it is a fold of
`Header.Set` over the parsed name/value pairs. -/
theorem applyHeaderFlag_foldl (hdrs : Str) (h : Header) (hne : hdrs ≠ []) :
    applyHeaderFlag hdrs h
      = (parsedHeaderPairs hdrs).foldl (fun acc p => headerSet acc p.1 p.2) h := by
  rw [applyHeaderFlag, if_neg hne, parsedHeaderPairs]
  generalize splitOnChar ',' hdrs = toks
  induction toks generalizing h with
  | nil => rfl
  | cons t ts ih =>
    cases hsp : splitN2 ':' t with
    | some kv =>
      simp only [List.foldl_cons, List.filterMap_cons, hsp]
      exact ih _
    | none =>
      simp only [List.foldl_cons, List.filterMap_cons, hsp]
      exact ih _

/-- C3: with `-json` data supplied (and no body file), the built request's
`Content-Type` is `application/json` when the `-headers` option contributes no
`Content-Type` pair, and is exactly the (last) `Content-Type` value the
`-headers` option supplies otherwise. -/
theorem c3_content_type (cfg : Config) (hf : cfg.bodyFile = []) (hj : cfg.jsonData ≠ []) :
    (lastMatch contentTypeKey (parsedHeaderPairs cfg.headers) = none →
        headerGet (buildRequest cfg).header contentTypeKey = appJson)
      ∧ (∀ v, lastMatch contentTypeKey (parsedHeaderPairs cfg.headers) = some v →
        headerGet (buildRequest cfg).header contentTypeKey = v) := by
  have hsrc : chosenSource cfg = BodySrc.jsonFields := by
    rw [chosenSource, if_neg (by simp [hf]), if_pos hj]
  have h1 : bodyHeaderEffect cfg [] = [(contentTypeKey, [appJson])] := by
    simp only [bodyHeaderEffect, hsrc]
    decide
  have hbr : (buildRequest cfg).header
      = applyHeaderFlag cfg.headers
          (if cfg.user ≠ [] then
            headerSet (bodyHeaderEffect cfg []) "Authorization".data
              (basicAuthValue cfg.user cfg.pass)
          else bodyHeaderEffect cfg []) := rfl
  have hgetH2 : headerGet
      (if cfg.user ≠ [] then
        headerSet (bodyHeaderEffect cfg []) "Authorization".data
          (basicAuthValue cfg.user cfg.pass)
      else bodyHeaderEffect cfg []) contentTypeKey = appJson := by
    by_cases hu : cfg.user ≠ []
    · rw [if_pos hu, h1, headerGet_headerSet, if_neg (by decide)]
      decide
    · rw [if_neg hu, h1]
      decide
  by_cases hh : cfg.headers = []
  · constructor
    · intro _
      rw [hbr, hh, applyHeaderFlag, if_pos rfl, headerGet_headerSet, if_pos rfl]
    · intro v hv
      rw [hh] at hv
      have hn : lastMatch contentTypeKey (parsedHeaderPairs []) = none := rfl
      rw [hn] at hv
      exact Option.noConfusion hv
  · constructor
    · intro hnone
      rw [hbr, applyHeaderFlag_foldl _ _ hh, headerGet_foldl, hnone, Option.getD_none]
      exact hgetH2
    · intro v hv
      rw [hbr, applyHeaderFlag_foldl _ _ hh, headerGet_foldl, hv, Option.getD_some]

def cfgC3a : Config :=
  { defaultConfig with
      url := "http://a".data
      jsonData := "a=1".data
      headers := "X-Test: 1".data }

def cfgC3b : Config :=
  { defaultConfig with
      url := "http://a".data
      jsonData := "a=1".data
      headers := "Content-Type: text/plain".data }

/-- Witness for C3: json data with a non-Content-Type header yields
`application/json`; an explicit `Content-Type: text/plain` is preserved. -/
theorem c3_content_type_witness :
    headerGet (buildRequest cfgC3a).header contentTypeKey = appJson
      ∧ headerGet (buildRequest cfgC3b).header contentTypeKey = "text/plain".data :=
  ⟨(c3_content_type cfgC3a (by decide) (by decide)).1 (by decide),
   (c3_content_type cfgC3b (by decide) (by decide)).2 "text/plain".data (by decide)⟩

def cfgC9 : Config :=
  { defaultConfig with url := "http://a".data, jsonData := "a=1".data, verbose := true }

def cfgC9none : Config := { cfgC9 with jsonData := [] }

/-- C9 counterexample: with a body supplied through the `-json` source the
verbose trace contains no body lines at all — it is line-for-line identical to
the trace of the same invocation with no body — because the trace's body
condition only checks the `-body`/`-body-file` flags and prints only the raw
`-body` text. -/
theorem c9_counterexample :
    chosenSource cfgC9 = BodySrc.jsonFields
      ∧ chosenSource cfgC9none = BodySrc.none
      ∧ verboseTrace cfgC9 (buildRequest cfgC9)
          = [[], "> GET http://a".data, "> Content-Type: application/json".data, []]
      ∧ verboseTrace cfgC9 (buildRequest cfgC9)
          = verboseTrace cfgC9none (buildRequest cfgC9none) := by
  refine ⟨by decide, by decide, by decide, by decide⟩

/-- C9 amended: with verbose enabled the pre-send trace always carries the
`> `-prefixed method/URL line and one line per request header; body lines are
emitted only when the `-body` or `-body-file` flag is non-empty, and then they
show the raw `-body` flag text — for the file, json and form sources the
actual payload is never traced. -/
theorem c9_amended_trace (cfg : Config) :
    ("> ".data ++ (buildRequest cfg).method ++ " ".data ++ (buildRequest cfg).url)
        ∈ verboseTrace cfg (buildRequest cfg)
      ∧ (∀ p ∈ (buildRequest cfg).header, headerLine p ∈ verboseTrace cfg (buildRequest cfg))
      ∧ ((cfg.body ≠ [] ∨ cfg.bodyFile ≠ []) →
          ("> ".data ++ cfg.body) ∈ verboseTrace cfg (buildRequest cfg))
      ∧ (cfg.body = [] → cfg.bodyFile = [] →
          verboseTrace cfg (buildRequest cfg)
            = [[], "> ".data ++ (buildRequest cfg).method ++ " ".data
                  ++ (buildRequest cfg).url]
                ++ (buildRequest cfg).header.map headerLine ++ [[]]) := by
  refine ⟨?_, ?_, ?_, ?_⟩
  · simp [verboseTrace]
  · intro p hp
    have hmem : headerLine p ∈ (buildRequest cfg).header.map headerLine :=
      List.mem_map_of_mem _ hp
    simp only [verboseTrace]
    refine List.mem_append.mpr (Or.inl ?_)
    refine List.mem_append.mpr (Or.inl ?_)
    exact List.mem_append.mpr (Or.inr hmem)
  · intro hb
    simp only [verboseTrace]
    refine List.mem_append.mpr (Or.inl ?_)
    refine List.mem_append.mpr (Or.inr ?_)
    rw [if_pos hb]
    exact List.mem_cons.mpr (Or.inr (List.mem_cons.mpr (Or.inl rfl)))
  · intro hb hbf
    simp [verboseTrace, hb, hbf]

def cfgC9w : Config :=
  { defaultConfig with url := "http://a".data, body := "ping".data, verbose := true }

/-- Witness for C9 (amended): with a raw `-body`, the method line and the
body line both appear in the trace. -/
theorem c9_amended_trace_witness :
    ("> GET http://a".data ∈ verboseTrace cfgC9w (buildRequest cfgC9w))
      ∧ ("> ping".data ∈ verboseTrace cfgC9w (buildRequest cfgC9w)) :=
  ⟨(c9_amended_trace cfgC9w).1,
   (c9_amended_trace cfgC9w).2.2.1 (Or.inl (by decide))⟩

end Blazar
